import Mathlib

/-!
Verification of the imdb-streaming-checker repository.

The development shallowly embeds the three source files:

* `src/imdb_parser.py` — the CSV watchlist parser (`parse_imdb_csv`);
* `src/tmdb_api.py` — the SQLite-backed provider cache (`sql_load`,
  `sql_save`, `sql_delete`), the media-kind classifier
  (`imdb_type_to_tmdb_type`), the dual-shape cache-entry decoder
  (`_extract_entry`, here `extract_entry`), and the two resolver entry
  points (`get_providers_cached`, `get_providers_fresh`);
* `src/app.py` — the cache-reconciliation blocks of `delete_file` and of
  the overwrite branch of `process`, and the refresh-decision policy of
  `process`.

Python dictionaries are modelled as association lists with first-key-wins
lookup and update-in-place-or-append update, which matches the observable
behaviour (insertion order, last write wins per key) of the dicts the
source builds.  Network collaborators (the TMDb find endpoint and the
per-region provider lookup) are passed in as explicit function parameters,
and the embedding records which regions triggered an external availability
lookup, so that cache-hit claims can speak about the absence of such calls.
-/

/-- Lookup in a Python-style dict modelled as an association list:
the first binding of the key wins (lists built by `dictUpd` never have a
duplicate key). Models `d.get(k)` returning `None` when the key is absent. -/
def dictGet {α : Type} : List (String × α) → String → Option α
  | [], _ => none
  | p :: rest, k => if p.1 = k then some p.2 else dictGet rest k

/-- Update of a Python-style dict: `d[k] = v` replaces the first binding of
`k` in place, or appends a new binding, preserving insertion order. -/
def dictUpd {α : Type} : List (String × α) → String → α → List (String × α)
  | [], k, v => [(k, v)]
  | p :: rest, k, v => if p.1 = k then (k, v) :: rest else p :: dictUpd rest k v

theorem dictGet_upd_self {α : Type} (d : List (String × α)) (k : String) (v : α) :
    dictGet (dictUpd d k v) k = some v := by
  induction d with
  | nil => simp [dictUpd, dictGet]
  | cons p rest ih =>
    by_cases h : p.1 = k
    · simp [dictUpd, h, dictGet]
    · simp [dictUpd, h, dictGet, ih]

theorem dictGet_upd_ne {α : Type} (d : List (String × α)) (k k' : String) (v : α)
    (h : k' ≠ k) : dictGet (dictUpd d k v) k' = dictGet d k' := by
  have hk' : ¬ k = k' := fun h' => h h'.symm
  induction d with
  | nil => simp [dictUpd, dictGet, hk']
  | cons p rest ih =>
    by_cases hp : p.1 = k
    · have hpk' : ¬ p.1 = k' := hp ▸ hk'
      simp [dictUpd, hp, dictGet, hk', hpk']
    · by_cases hp' : p.1 = k'
      · simp only [dictUpd, if_neg hp, dictGet, if_pos hp']
      · simp only [dictUpd, if_neg hp, dictGet, if_neg hp', ih]

/-- A per-region entry of the providers block of a cache record, as stored in
`providers_json` (src/tmdb_api.py).  The source is duck-typed: an entry is
either a legacy bare list of provider names, or a structured dict with keys
`last_updated` (which may be absent, hence `Option`) and `names`.  The
catch-all arm of `_extract_entry` for entries that are neither lists nor
dicts is not representable here, because nothing in the repository ever
writes such an entry. -/
inductive Entry : Type where
  | legacy (names : List String)
  | dated (last_updated : Option String) (names : List String)
deriving DecidableEq, Repr

/-- One row of the `film_cache` table joined with its decoded
`providers_json` block: the dict `{"tmdb_id": ..., "providers": ...}` that
`sql_load` returns and `sql_save` stores (src/tmdb_api.py lines 37-72).
The JSON (de)serialisation of the providers block is a bijection on these
values and is modelled as the identity. -/
structure CacheData : Type where
  tmdb_id : Option Int
  providers : List (String × Entry)
deriving DecidableEq, Repr

/-- The `film_cache` SQLite table: one row per `imdb_id` (primary key). -/
abbrev Store : Type := List (String × CacheData)

/-- Embeds `sql_load` (src/tmdb_api.py lines 37-57): the row for `imdb_id`,
or `None` when absent. -/
def sql_load (store : Store) (imdb_id : String) : Option CacheData :=
  dictGet store imdb_id

/-- Embeds `sql_save` (src/tmdb_api.py lines 60-72): `INSERT OR REPLACE`
keyed by `imdb_id`. -/
def sql_save (store : Store) (imdb_id : String) (data : CacheData) : Store :=
  dictUpd store imdb_id data

/-- Embeds `sql_delete` (src/tmdb_api.py lines 75-80): `DELETE ... WHERE
imdb_id = ?`. -/
def sql_delete (store : Store) (imdb_id : String) : Store :=
  List.filter (fun p => ¬ p.1 = imdb_id) store

theorem sql_load_delete_self (store : Store) (imdb_id : String) :
    sql_load (sql_delete store imdb_id) imdb_id = none := by
  induction store with
  | nil => rfl
  | cons p rest ih =>
    by_cases h : p.1 = imdb_id
    · simpa [sql_delete, sql_load, List.filter_cons, h] using ih
    · simpa [sql_delete, sql_load, List.filter_cons, dictGet, h] using ih

theorem sql_load_delete_ne (store : Store) (imdb_id k : String) (h : k ≠ imdb_id) :
    sql_load (sql_delete store imdb_id) k = sql_load store k := by
  induction store with
  | nil => rfl
  | cons p rest ih =>
    have hik : ¬ imdb_id = k := fun h' => h h'.symm
    by_cases hp : p.1 = imdb_id
    · simpa [sql_delete, sql_load, List.filter_cons, dictGet, hp, hik] using ih
    · by_cases hk : p.1 = k
      · simp [sql_delete, sql_load, List.filter_cons, dictGet, hp, hk, h]
      · simpa [sql_delete, sql_load, List.filter_cons, dictGet, hp, hk] using ih

/-- Embeds `_extract_entry` (src/tmdb_api.py lines 150-172), applied to the
result of `providers_block.get(region)`: `None` and a legacy bare list both
decode to no date; a structured dict decodes to its date and names. -/
def extract_entry : Option Entry → Option String × List String
  | none => (none, [])
  | some (.legacy names) => (none, names)
  | some (.dated last_updated names) => (last_updated, names)

/-- Python lowercasing of a string, `s.lower()`, character by character
(the raw media kinds in scope are ASCII). -/
def pyLower (s : String) : String := String.mk (s.toList.map Char.toLower)

/-- Python `s.strip()`: drop whitespace at both ends. -/
def pyStrip (s : String) : String :=
  String.mk (((s.toList.dropWhile Char.isWhitespace).reverse.dropWhile
    Char.isWhitespace).reverse)

/-- Python's substring test `"tv" in s`, over the character list of `s`. -/
def hasTvSub : List Char → Bool
  | 't' :: 'v' :: _ => true
  | _ :: rest => hasTvSub rest
  | [] => false

/-- Embeds `imdb_type_to_tmdb_type` (src/tmdb_api.py lines 87-100): lowercase
and strip, then a fixed movie set, a fixed tv set, a substring fallback for
"tv", and a final default of "movie". -/
def imdb_type_to_tmdb_type (imdb_type : String) : String :=
  let t := pyStrip (pyLower imdb_type)
  if t ∈ ["movie", "short", "video", "tvmovie"] then "movie"
  else if t ∈ ["tvseries", "tvminiseries", "tvepisode", "tvspecial"] then "tv"
  else if hasTvSub t.toList then "tv"
  else "movie"

/-- The dict `{"tmdb_id": ..., "providers": ...}` returned by both resolver
entry points (results values are plain name lists, not `Entry`). -/
structure ProvidersResult : Type where
  tmdb_id : Option Int
  providers : List (String × List String)
deriving DecidableEq, Repr

/-- A `SELECT` leaves the database unchanged: `sql_load` threaded as an
explicit state transformer, for stating frame properties of the callers. -/
def sql_load_st (store : Store) (imdb_id : String) : Option CacheData × Store :=
  (sql_load store imdb_id, store)

/-- Embeds `get_providers_cached` (src/tmdb_api.py lines 179-199) with the
database threaded through explicitly: the only store operation the source
performs is the initial `sql_load`.  The branch for an absent record builds
`{region: [] for region in regions}`; the main branch fills `out[region]`
with the names decoded from the stored entry. -/
def get_providers_cached_st (store : Store) (imdb_id : String)
    (regions : List String) : ProvidersResult × Store :=
  match sql_load_st store imdb_id with
  | (none, store1) =>
      (⟨none, regions.foldl (fun o region => dictUpd o region []) []⟩, store1)
  | (some cached, store1) =>
      let out := regions.foldl
        (fun o region =>
          dictUpd o region (extract_entry (dictGet cached.providers region)).2) []
      (⟨cached.tmdb_id, out⟩, store1)

/-- The value `get_providers_cached` returns to its caller. -/
def get_providers_cached (store : Store) (imdb_id : String)
    (regions : List String) : ProvidersResult :=
  (get_providers_cached_st store imdb_id regions).1

/-- The full observable outcome of one `get_providers_fresh` call: the
returned dict, the database after the final `sql_save`, how many times the
TMDb find endpoint (`get_tmdb_id`) was hit, and the regions for which the
external per-region availability lookup (`get_watch_providers`) was hit. -/
structure FreshOutcome : Type where
  tmdb_id : Option Int
  providers : List (String × List String)
  store : Store
  find_calls : Nat
  lookup_calls : List String
deriving DecidableEq, Repr

/-- The per-region loop of `get_providers_fresh` (src/tmdb_api.py lines
227-244): a region whose stored entry decodes to today's date is served
from the cache; otherwise the names come from the availability lookup
(empty when the TMDb id is null, in which case `get_watch_providers` is
not called — the source guards with `if tmdb_id is None`), and the block
entry is overwritten with the structured `last_updated`/`names` form.
Arguments after the oracles: TMDb id, media type, today, the regions still
to process, the providers block, the results dict, and the lookup-call log. -/
def fresh_loop (lookup : Int → String → String → List String)
    (tmdb_id : Option Int) (media_type today_str : String) :
    List String → List (String × Entry) → List (String × List String) →
    List String →
    List (String × Entry) × List (String × List String) × List String
  | [], block, results, calls => (block, results, calls)
  | region :: rest, block, results, calls =>
    let e := extract_entry (dictGet block region)
    if e.1 = some today_str then
      fresh_loop lookup tmdb_id media_type today_str rest block
        (dictUpd results region e.2) calls
    else
      match tmdb_id with
      | none =>
          fresh_loop lookup tmdb_id media_type today_str rest
            (dictUpd block region (.dated (some today_str) []))
            (dictUpd results region []) calls
      | some tid =>
          let names := lookup tid media_type region
          fresh_loop lookup tmdb_id media_type today_str rest
            (dictUpd block region (.dated (some today_str) names))
            (dictUpd results region names) (calls ++ [region])

/-- Embeds `get_providers_fresh` (src/tmdb_api.py lines 206-252).  The two
network collaborators are passed in: `find_id` models `get_tmdb_id` and
`lookup` models `get_watch_providers` on a non-null id.  A fetch is needed
when some requested region's stored date differs from today; only then, and
only when the cached TMDb id is null, is `find_id` consulted.  The record
(updated id and updated block) is saved back unconditionally at the end. -/
def get_providers_fresh (find_id : String → Option Int)
    (lookup : Int → String → String → List String) (store : Store)
    (imdb_id imdb_type : String) (regions : List String)
    (today_str : String) : FreshOutcome :=
  let cached := (sql_load store imdb_id).getD ⟨none, []⟩
  let providers_block := cached.providers
  let need_any_fetch := regions.any
    (fun region =>
      ¬ (extract_entry (dictGet providers_block region)).1 = some today_str)
  let need_find := need_any_fetch && cached.tmdb_id.isNone
  let tmdb_id := if need_find then find_id imdb_id else cached.tmdb_id
  let media_type := imdb_type_to_tmdb_type imdb_type
  let step := fresh_loop lookup tmdb_id media_type today_str regions
    providers_block [] []
  { tmdb_id := tmdb_id
    providers := step.2.1
    store := sql_save store imdb_id ⟨tmdb_id, step.1⟩
    find_calls := if need_find then 1 else 0
    lookup_calls := step.2.2 }

/-- One row as produced by `csv.DictReader`, one field per header the parser
reads.  Each cell is `Option (Option String)`: `none` when the column is
absent from the file's header (so `row.get(header, default)` falls back to
the default), `some none` when the column exists but this row is short and
the reader filled the cell with its `restval` of `None`, and
`some (some s)` for an actual string cell. -/
structure Row : Type where
  const : Option (Option String) := none
  title : Option (Option String) := none
  titleType : Option (Option String) := none
  position : Option (Option String) := none
  year : Option (Option String) := none
  imdbRating : Option (Option String) := none
  runtimeMins : Option (Option String) := none
  genres : Option (Option String) := none
  directors : Option (Option String) := none
deriving DecidableEq, Repr

/-- Models `row.get(header, "").strip()` on a `DictReader` row: an absent
column falls back to the default `""` and strips it; a string cell is
stripped; a `None`-filled cell of a short row raises `AttributeError` at
`.strip()`, modelled as `none`. -/
def getStrip : Option (Option String) → Option String
  | none => some (pyStrip "")
  | some none => none
  | some (some s) => some (pyStrip s)

/-- Value of a list of decimal digits, most significant first. -/
def digitsVal (l : List Char) : Nat :=
  l.foldl (fun n c => 10 * n + (c.toNat - 48)) 0

/-- A non-empty all-digit character list, or failure. -/
def pyNatDigits (l : List Char) : Option Nat :=
  if l ≠ [] ∧ l.all Char.isDigit then some (digitsVal l) else none

/-- Models Python `int(s)` on an already-stripped string: an optional sign
followed by one or more decimal digits; anything else raises, which the
source converts to `None`.  (Digit-grouping underscores are not modelled;
no IMDb export contains them.) -/
def pyInt (s : String) : Option Int :=
  match s.toList with
  | '-' :: rest => (pyNatDigits rest).map (fun n => -(n : Int))
  | '+' :: rest => (pyNatDigits rest).map (fun n => (n : Int))
  | l => (pyNatDigits l).map (fun n => (n : Int))

/-- Split a character list at every occurrence of a separator character,
as Python `s.split(sep)` does. -/
def splitOnChar (sep : Char) : List Char → List (List Char)
  | [] => [[]]
  | c :: rest =>
    if c = sep then [] :: splitOnChar sep rest
    else
      match splitOnChar sep rest with
      | [] => [[c]]
      | part :: parts => (c :: part) :: parts

/-- The unsigned part of Python `float(s)`: decimal digits with at most one
dot and at least one digit overall. -/
def pyFloatCore (l : List Char) : Option Rat :=
  match splitOnChar '.' l with
  | [ip] => (pyNatDigits ip).map (fun n => (n : Rat))
  | [ip, fp] =>
    if (ip ≠ [] ∨ fp ≠ []) ∧ ip.all Char.isDigit ∧ fp.all Char.isDigit then
      some ((digitsVal ip : Rat) + (digitsVal fp : Rat) / ((10 : Rat) ^ fp.length))
    else none
  | _ => none

/-- Models Python `float(s)` on an already-stripped string, restricted to
plain decimal forms (exponents and the special spellings such as "inf" are
not modelled; IMDb ratings are plain decimals).  Failure raises, which the
source converts to `None`. -/
def pyFloat (s : String) : Option Rat :=
  match s.toList with
  | '-' :: rest => (pyFloatCore rest).map (fun q => -q)
  | '+' :: rest => pyFloatCore rest
  | l => pyFloatCore l

/-- The `type_map` normalisation table of `parse_imdb_csv`
(src/imdb_parser.py lines 23-32): unknown raw categories pass through. -/
def type_map (type_raw : String) : String :=
  match type_raw with
  | "movie" => "Movie"
  | "tvSeries" => "TV Series"
  | "tvMiniSeries" => "TV Mini-Series"
  | "tvEpisode" => "TV Episode"
  | "short" => "Short"
  | "video" => "Video"
  | "tvMovie" => "TV Movie"
  | other => other

/-- The genres field of a row (src/imdb_parser.py lines 59-60): empty string
yields no genres; otherwise split on commas, strip each token, and drop the
tokens that are empty after stripping. -/
def parseGenres (genres_raw : String) : List String :=
  if genres_raw = "" then []
  else
    (((splitOnChar ',' genres_raw.toList).map
      (fun l => pyStrip (String.mk l)))).filter (fun g => ¬ g = "")

/-- A parsed watchlist row: the film dict `parse_imdb_csv` appends
(src/imdb_parser.py lines 65-75). -/
structure TitleEntry : Type where
  imdb_id : String
  title : String
  type : String
  position : Option Int
  year : Option Int
  genres : List String
  rating : Option Rat
  runtime : Option Int
  directors : String
deriving DecidableEq, Repr

/-- Models `int(row.get(header, "").strip())` inside a `try`/bare-`except`
block (src/imdb_parser.py lines 35-56): the bare `except:` catches both the
`ValueError` of a failed parse and the `AttributeError` of a `None`-filled
cell, yielding `None` either way. -/
def tryIntCell (cell : Option (Option String)) : Option Int :=
  match getStrip cell with
  | none => none
  | some s => pyInt s

/-- Models `float(row.get("IMDb Rating", "").strip())` inside the same kind
of `try`/bare-`except` block (src/imdb_parser.py lines 46-50). -/
def tryFloatCell (cell : Option (Option String)) : Option Rat :=
  match getStrip cell with
  | none => none
  | some s => pyFloat s

/-- The film dict built by the row loop of `parse_imdb_csv` for a row whose
identifier is non-blank (src/imdb_parser.py lines 19-75): `none` when
reading one of the five unguarded text cells (`Title`, `Title Type`,
`Genres`, `Directors` — and `Const`, already read by the caller) raises
`AttributeError` on a `None`-filled ragged-row cell, which no `try` block
protects, so the whole parse aborts. -/
def mkFilm (row : Row) : Option TitleEntry :=
  match getStrip row.const, getStrip row.title, getStrip row.titleType,
      getStrip row.genres, getStrip row.directors with
  | some imdb_id, some title, some type_raw, some genres_raw,
      some directors =>
    some { imdb_id := imdb_id
           title := title
           type := type_map type_raw
           position := tryIntCell row.position
           year := tryIntCell row.year
           genres := parseGenres genres_raw
           rating := tryFloatCell row.imdbRating
           runtime := tryIntCell row.runtimeMins
           directors := directors }
  | _, _, _, _, _ => none

/-- Embeds `parse_imdb_csv` (src/imdb_parser.py lines 3-77) on the decoded
row sequence.  Reading the `Const` cell of a short row raises
`AttributeError` at `None.strip()` and aborts the whole parse (the `Option`
result); a blank or absent identifier skips the row (`continue`); every
other row appends one film, in source order, provided none of its
unguarded text cells raises. -/
def parse_imdb_csv : List Row → Option (List TitleEntry)
  | [] => some []
  | row :: rest =>
    match getStrip row.const with
    | none => none
    | some imdb_id =>
      if imdb_id = "" then parse_imdb_csv rest
      else
        match mkFilm row with
        | none => none
        | some film => (parse_imdb_csv rest).map (fun films => film :: films)

/-- Membership of a Python set built by repeated `add`, modelled as a list
without duplicate insertions. -/
def setAdd (s : List String) (x : String) : List String :=
  if x ∈ s then s else s ++ [x]

/-- The shared-identifier accumulation common to `delete_file`
(src/app.py lines 146-154) and the overwrite branch of `process`
(src/app.py lines 255-267): the union over the other watchlists of the
intersection of this watchlist's identifiers with theirs. -/
def shared_ids_of (imdb_ids : List String) (other_lists : List (List String)) :
    List String :=
  other_lists.foldl (fun acc other_ids => acc ∪ (imdb_ids ∩ other_ids)) []

/-- Embeds the cache-reconciliation part of `delete_file` (src/app.py lines
126-169) after the watchlists have been parsed: `imdb_ids` are the deleted
watchlist's identifiers, `other_lists` the identifier lists of the
remaining watchlists, and each identifier of the deleted watchlist that is
not shared with another watchlist has its row `sql_delete`d. -/
def delete_file_reconcile (imdb_ids : List String)
    (other_lists : List (List String)) (sql_store : Store) : Store :=
  let shared_ids := shared_ids_of imdb_ids other_lists
  imdb_ids.foldl
    (fun st imdb_id =>
      if imdb_id ∈ shared_ids then st else sql_delete st imdb_id)
    sql_store

/-- Embeds the overwrite reconciliation of the `is_new_upload_selected`
branch of `process` (src/app.py lines 244-289) after parsing:
`old_imdb_ids` from the old file content, `other_lists` from the other
watchlists, `new_ids` from the newly saved content.  For each old
identifier neither kept in the new content nor shared with another
watchlist, the source removes the file `cache/<imdb_id>.json` when it
exists (`legacy_files` models the contents of that directory); it performs
no operation on the SQLite store, which is returned unchanged. -/
def overwrite_reconcile (old_imdb_ids : List String)
    (other_lists : List (List String)) (new_ids : List String)
    (sql_store : Store) (legacy_files : List String) :
    Store × List String :=
  let ids_in_other_lists := shared_ids_of old_imdb_ids other_lists
  let legacy := old_imdb_ids.foldl
    (fun files imdb_id =>
      if imdb_id ∈ new_ids then files
      else if imdb_id ∈ ids_in_other_lists then files
      else files.filter (fun f => ¬ f = imdb_id))
    legacy_files
  (sql_store, legacy)

/-- The body of the per-region classification loop of `process` (src/app.py
lines 331-340), acting on the pair (refresh_regions, cached_regions). -/
def refresh_step (refresh_mode : String)
    (existing_dates : List (String × String))
    (rc : List String × List String) (r : String) :
    List String × List String :=
  match dictGet existing_dates r with
  | none => (setAdd rc.1 r, rc.2)
  | some _ =>
    if refresh_mode = "refresh" then (setAdd rc.1 r, rc.2)
    else (rc.1, setAdd rc.2 r)

/-- Embeds the refresh-decision block of `process` (src/app.py lines
320-341): on a new upload every requested region is marked to-refresh;
otherwise a region with no recorded date in the watchlist metadata is
marked to-refresh, a region with a recorded date is marked to-refresh
exactly in mode "refresh" and otherwise marked use-cached.  Returns the
pair (refresh_regions, cached_regions). -/
def refresh_decision (is_new_upload_selected : Bool) (refresh_mode : String)
    (existing_dates : List (String × String)) (regions : List String) :
    List String × List String :=
  if is_new_upload_selected then (regions.foldl setAdd [], [])
  else regions.foldl (refresh_step refresh_mode existing_dates) ([], [])

/-- Embeds the metadata update after resolution (src/app.py lines 369-373):
each refreshed region's date is set to today in the watchlist metadata
regions map (when no region was refreshed the loop body never runs and the
map is unchanged, which the fold over the empty list also yields). -/
def update_meta_regions (meta_regions : List (String × String))
    (refresh_regions : List String) (today_str : String) :
    List (String × String) :=
  refresh_regions.foldl (fun m r => dictUpd m r today_str) meta_regions

theorem dictGet_foldUpd {α : Type} (f : String → α) (regions : List String)
    (acc : List (String × α)) (r : String) :
    dictGet (regions.foldl (fun o region => dictUpd o region (f region)) acc) r =
      if r ∈ regions then some (f r) else dictGet acc r := by
  induction regions generalizing acc with
  | nil => simp
  | cons x rest ih =>
    by_cases hx : r = x
    · subst hx
      by_cases hr : r ∈ rest
      · simp [List.foldl_cons, ih, hr]
      · simp [List.foldl_cons, ih, hr, dictGet_upd_self]
    · simp [List.foldl_cons, ih, hx, dictGet_upd_ne _ _ _ _ hx]

/-- C9: writing a cache record with `sql_save` and reading it back with
`sql_load` for the same identifier reproduces the record: the same internal
TMDb id and the same region-to-names providers content. -/
theorem C9_save_load_roundtrip (store : Store) (imdb_id : String)
    (data : CacheData) :
    ∃ rec, sql_load (sql_save store imdb_id data) imdb_id = some rec ∧
      rec.tmdb_id = data.tmdb_id ∧
      ∀ region, dictGet rec.providers region = dictGet data.providers region :=
  ⟨data, by simpa [sql_load, sql_save] using dictGet_upd_self store imdb_id data,
    rfl, fun _ => rfl⟩

/-- C10: `get_providers_cached` only reads the store (its sole store
operation is the initial `sql_load`), so the store after the call is the
store before it and every record loads identically. -/
theorem C10_cached_is_readonly (store : Store) (imdb_id : String)
    (regions : List String) :
    (get_providers_cached_st store imdb_id regions).2 = store ∧
    ∀ k, sql_load (get_providers_cached_st store imdb_id regions).2 k =
      sql_load store k := by
  have h2 : (get_providers_cached_st store imdb_id regions).2 = store := by
    unfold get_providers_cached_st sql_load_st
    cases sql_load store imdb_id <;> rfl
  exact ⟨h2, fun k => by rw [h2]⟩

/-- C5: with no cached record for the identifier, `get_providers_cached`
returns a null TMDb id and an empty provider list for every requested
region; in general every requested region with no cached entry maps to an
empty list.  The embedding of `get_providers_cached` takes no network
collaborator: the source performs no network call. -/
theorem C5_cached_defaults (store : Store) (imdb_id : String)
    (regions : List String) :
    (sql_load store imdb_id = none →
      (get_providers_cached store imdb_id regions).tmdb_id = none ∧
      ∀ r ∈ regions,
        dictGet (get_providers_cached store imdb_id regions).providers r =
          some []) ∧
    (∀ cached, sql_load store imdb_id = some cached →
      ∀ r ∈ regions, dictGet cached.providers r = none →
        dictGet (get_providers_cached store imdb_id regions).providers r =
          some []) := by
  constructor
  · intro h
    unfold get_providers_cached get_providers_cached_st sql_load_st
    rw [h]
    refine ⟨rfl, fun r hr => ?_⟩
    have := dictGet_foldUpd (fun _ => ([] : List String)) regions [] r
    simpa [hr] using this
  · intro cached h r hr hnone
    unfold get_providers_cached get_providers_cached_st sql_load_st
    rw [h]
    have := dictGet_foldUpd
      (fun region => (extract_entry (dictGet cached.providers region)).2)
      regions [] r
    simp only [hr, if_pos] at this
    simpa [hnone, extract_entry] using this

/-- C5 witness: a store without the identifier, and a store whose record has
no entry for the requested region. -/
theorem C5_witness :
    (sql_load [] "tt0111161" = none ∧
      (get_providers_cached [] "tt0111161" ["GB"]).tmdb_id = none ∧
      dictGet (get_providers_cached [] "tt0111161" ["GB"]).providers "GB" =
        some []) ∧
    dictGet (get_providers_cached
      [("tt0111161", ⟨some 278, [("GB", .legacy ["Netflix"])]⟩)]
      "tt0111161" ["US"]).providers "US" = some [] := by
  refine ⟨⟨rfl, ?_⟩, ?_⟩
  · have h := (C5_cached_defaults [] "tt0111161" ["GB"]).1 rfl
    exact ⟨h.1, h.2 "GB" (by decide)⟩
  · exact (C5_cached_defaults
      [("tt0111161", ⟨some 278, [("GB", .legacy ["Netflix"])]⟩)]
      "tt0111161" ["US"]).2 ⟨some 278, [("GB", .legacy ["Netflix"])]⟩ rfl
      "US" (by decide) (by decide)

/-- C6 counterexample: "tvMovie" lowercases-and-strips to "tvmovie", which
contains the substring "tv", yet the classifier maps it to "movie" (it is
in the fixed movie set, which is checked before the substring fallback).
This refutes the claim that every kind containing "tv" classifies as "tv". -/
theorem C6_counterexample :
    hasTvSub (pyStrip (pyLower "tvMovie")).toList = true ∧
    imdb_type_to_tmdb_type "tvMovie" = "movie" := by
  exact ⟨by decide, by decide⟩

/-- C6 (amended): the classifier maps every raw kind string into the set
containing "movie" and "tv"; after lowercasing and stripping, every string
containing the substring "tv" classifies as "tv" EXCEPT "tvmovie", which
classifies as "movie"; every string not containing "tv" classifies as
"movie"; "tvMiniSeries" classifies as "tv" and "short" as "movie". -/
theorem C6_classifier_amended (s : String) :
    (imdb_type_to_tmdb_type s = "movie" ∨ imdb_type_to_tmdb_type s = "tv") ∧
    (hasTvSub (pyStrip (pyLower s)).toList = true →
      ¬ pyStrip (pyLower s) = "tvmovie" → imdb_type_to_tmdb_type s = "tv") ∧
    (hasTvSub (pyStrip (pyLower s)).toList = false →
      imdb_type_to_tmdb_type s = "movie") ∧
    imdb_type_to_tmdb_type "tvMiniSeries" = "tv" ∧
    imdb_type_to_tmdb_type "short" = "movie" := by
  refine ⟨?_, ?_, ?_, by decide, by decide⟩
  · unfold imdb_type_to_tmdb_type
    set t := pyStrip (pyLower s) with ht
    by_cases h1 : t ∈ ["movie", "short", "video", "tvmovie"]
    · simp [h1]
    · by_cases h2 : t ∈ ["tvseries", "tvminiseries", "tvepisode", "tvspecial"]
      · simp [h1, h2]
      · by_cases h3 : hasTvSub t.toList <;> simp [h1, h2, h3]
  · intro hsub hnot
    unfold imdb_type_to_tmdb_type
    set t := pyStrip (pyLower s) with ht
    by_cases h1 : t ∈ ["movie", "short", "video", "tvmovie"]
    · exfalso
      rcases List.mem_cons.mp h1 with h | h1
      · rw [h] at hsub; exact absurd hsub (by decide)
      rcases List.mem_cons.mp h1 with h | h1
      · rw [h] at hsub; exact absurd hsub (by decide)
      rcases List.mem_cons.mp h1 with h | h1
      · rw [h] at hsub; exact absurd hsub (by decide)
      rcases List.mem_cons.mp h1 with h | h1
      · exact hnot h
      · exact absurd h1 (List.not_mem_nil t)
    · by_cases h2 : t ∈ ["tvseries", "tvminiseries", "tvepisode", "tvspecial"]
      · simp [h1, h2]
      · simp only [String.toList] at hsub
        simp [h1, h2, hsub]
  · intro hsub
    unfold imdb_type_to_tmdb_type
    set t := pyStrip (pyLower s) with ht
    by_cases h1 : t ∈ ["movie", "short", "video", "tvmovie"]
    · simp [h1]
    · by_cases h2 : t ∈ ["tvseries", "tvminiseries", "tvepisode", "tvspecial"]
      · exfalso
        rcases List.mem_cons.mp h2 with h | h2
        · rw [h] at hsub; exact absurd hsub (by decide)
        rcases List.mem_cons.mp h2 with h | h2
        · rw [h] at hsub; exact absurd hsub (by decide)
        rcases List.mem_cons.mp h2 with h | h2
        · rw [h] at hsub; exact absurd hsub (by decide)
        rcases List.mem_cons.mp h2 with h | h2
        · rw [h] at hsub; exact absurd hsub (by decide)
        · exact absurd h2 (List.not_mem_nil t)
      · simp only [String.toList] at hsub
        simp [h1, h2, hsub]

/-- C6 witness: "tvSpecial" contains "tv", differs from "tvmovie", and
classifies as "tv". -/
theorem C6_witness :
    hasTvSub (pyStrip (pyLower "tvSpecial")).toList = true ∧
    ¬ pyStrip (pyLower "tvSpecial") = "tvmovie" ∧
    imdb_type_to_tmdb_type "tvSpecial" = "tv" :=
  ⟨by decide, by decide,
    (C6_classifier_amended "tvSpecial").2.1 (by decide) (by decide)⟩

/-- C2: evaluation of the overwrite reconciliation at a failing input.  The
watchlist's old content has identifier "tt0000001", the new content and the
other watchlists do not, and the cache store holds a record for it; the
claim (and spec section 4.3) requires that record to be removed, but the
code only removes the legacy file `cache/tt0000001.json` (a directory no
code in the repository ever writes) and never calls `sql_delete`, so the
SQLite cache record survives unchanged. -/
theorem C2_sql_record_survives_overwrite :
    (overwrite_reconcile ["tt0000001"] [] []
        [("tt0000001", ⟨some 42, [("GB", .dated (some "2025-01-01") ["Netflix"])]⟩)]
        ["tt0000001"]).1 =
      [("tt0000001", ⟨some 42, [("GB", .dated (some "2025-01-01") ["Netflix"])]⟩)] ∧
    (overwrite_reconcile ["tt0000001"] [] []
        [("tt0000001", ⟨some 42, [("GB", .dated (some "2025-01-01") ["Netflix"])]⟩)]
        ["tt0000001"]).2 = [] := by
  exact ⟨rfl, by decide⟩

theorem mkFilm_fields (row : Row) (entry : TitleEntry)
    (h : mkFilm row = some entry) :
    entry.position = tryIntCell row.position ∧
    entry.year = tryIntCell row.year ∧
    entry.runtime = tryIntCell row.runtimeMins ∧
    entry.rating = tryFloatCell row.imdbRating := by
  unfold mkFilm at h
  split at h
  · cases h
    exact ⟨rfl, rfl, rfl, rfl⟩
  · exact absurd h (by simp)

theorem mkFilm_some (row : Row)
    (h1 : ¬ getStrip row.const = none) (h2 : ¬ getStrip row.title = none)
    (h3 : ¬ getStrip row.titleType = none)
    (h4 : ¬ getStrip row.genres = none)
    (h5 : ¬ getStrip row.directors = none) :
    ¬ mkFilm row = none := by
  obtain ⟨c, hc⟩ := Option.ne_none_iff_exists'.mp h1
  obtain ⟨t, ht⟩ := Option.ne_none_iff_exists'.mp h2
  obtain ⟨ty, hty⟩ := Option.ne_none_iff_exists'.mp h3
  obtain ⟨g, hg⟩ := Option.ne_none_iff_exists'.mp h4
  obtain ⟨d, hd⟩ := Option.ne_none_iff_exists'.mp h5
  unfold mkFilm
  rw [hc, ht, hty, hg, hd]
  simp

theorem filterMap_length_of_some {α β : Type} (f : α → Option β) :
    ∀ l : List α, (∀ x ∈ l, ¬ f x = none) →
      (l.filterMap f).length = l.length := by
  intro l
  induction l with
  | nil => intro _; rfl
  | cons x rest ih =>
    intro h
    rcases hx : f x with _ | y
    · exact absurd hx (h x (List.mem_cons_self x rest))
    · rw [List.filterMap_cons, hx]
      simp [ih (fun z hz => h z (List.mem_cons_of_mem x hz))]

/-- C8 counterexample: a table whose single row is a short (ragged) row
whose `Const` cell the reader filled with `None`.  The claim requires the
row to be silently dropped, yielding the empty output sequence, but the
source raises `AttributeError` at `None.strip()` (src/imdb_parser.py line
15, outside every `try` block) and the parse aborts with no output. -/
theorem C8_counterexample :
    ¬ parse_imdb_csv [({ const := some none } : Row)] = some [] ∧
    parse_imdb_csv [({ const := some none } : Row)] = none := by
  exact ⟨by decide, by decide⟩

/-- C8 (amended): on every input table in which no row has a `None`-filled
cell under the five unguarded text headers (`Const`, `Title`, `Title Type`,
`Genres`, `Directors`), the parser drops exactly the rows whose identifier
cell is blank or missing, keeps every other row as one entry in source
order, and a kept row whose position, year, runtime or rating fails to
parse (including a `None`-filled cell in those columns, whose error the
bare `except` catches) carries null in that field while the row is kept;
a `None`-filled cell under an unguarded header instead raises and aborts
the entire parse with no output. -/
theorem C8_row_policy (rows : List Row)
    (hok : ∀ row ∈ rows,
      ¬ getStrip row.const = none ∧ ¬ getStrip row.title = none ∧
      ¬ getStrip row.titleType = none ∧ ¬ getStrip row.genres = none ∧
      ¬ getStrip row.directors = none) :
    parse_imdb_csv rows =
      some ((rows.filter
        (fun row => ¬ (getStrip row.const).getD "" = "")).filterMap mkFilm) ∧
    ((rows.filter
        (fun row => ¬ (getStrip row.const).getD "" = "")).filterMap
      mkFilm).length =
      (rows.filter
        (fun row => ¬ (getStrip row.const).getD "" = "")).length ∧
    ∀ row entry, mkFilm row = some entry →
      (tryIntCell row.position = none → entry.position = none) ∧
      (tryIntCell row.year = none → entry.year = none) ∧
      (tryIntCell row.runtimeMins = none → entry.runtime = none) ∧
      (tryFloatCell row.imdbRating = none → entry.rating = none) := by
  refine ⟨?_, ?_, ?_⟩
  · induction rows with
    | nil => rfl
    | cons row rest ih =>
      obtain ⟨h1, h2, h3, h4, h5⟩ := hok row (List.mem_cons_self row rest)
      have hrest := ih (fun z hz => hok z (List.mem_cons_of_mem row hz))
      obtain ⟨c, hc⟩ := Option.ne_none_iff_exists'.mp h1
      by_cases hb : c = ""
      · subst hb
        simp [parse_imdb_csv, hc, hrest, List.filter_cons]
      · obtain ⟨e, he⟩ :=
          Option.ne_none_iff_exists'.mp (mkFilm_some row h1 h2 h3 h4 h5)
        simp [parse_imdb_csv, hc, hb, he, hrest, List.filter_cons,
          List.filterMap_cons]
  · refine filterMap_length_of_some mkFilm _ (fun row hrow => ?_)
    obtain ⟨h1, h2, h3, h4, h5⟩ := hok row (List.mem_of_mem_filter hrow)
    exact mkFilm_some row h1 h2 h3 h4 h5
  · intro row entry he
    obtain ⟨f1, f2, f3, f4⟩ := mkFilm_fields row entry he
    exact ⟨fun h => f1.trans h, fun h => f2.trans h, fun h => f3.trans h,
      fun h => f4.trans h⟩

/-- C8 witness: a table whose first row has no cells at all under any header
(missing identifier, dropped) and whose second row has an unparsable year:
the parse succeeds with exactly the second row, carrying a null year. -/
theorem C8_witness :
    parse_imdb_csv
        [({} : Row),
         ({ const := some (some "tt0000002"),
            year := some (some "199x") } : Row)] =
      some [⟨"tt0000002", "", "", none, none, [], none, none, ""⟩] ∧
    (⟨"tt0000002", "", "", none, none, [], none, none, ""⟩ :
      TitleEntry).year = none := by
  constructor
  · exact ((C8_row_policy
      [({} : Row),
       ({ const := some (some "tt0000002"),
          year := some (some "199x") } : Row)] (by decide)).1).trans
      (by decide)
  · exact (((C8_row_policy
      [({ const := some (some "tt0000002"),
          year := some (some "199x") } : Row)] (by decide)).2.2
      ({ const := some (some "tt0000002"),
         year := some (some "199x") } : Row)
      ⟨"tt0000002", "", "", none, none, [], none, none, ""⟩
      (by decide)).2.1) (by decide)

theorem mem_shared_ids (imdb_ids : List String) (other_lists : List (List String))
    (k : String) :
    k ∈ shared_ids_of imdb_ids other_lists ↔
      ∃ l ∈ other_lists, k ∈ imdb_ids ∧ k ∈ l := by
  have main : ∀ (lists : List (List String)) (acc : List String),
      k ∈ lists.foldl (fun acc other_ids => acc ∪ (imdb_ids ∩ other_ids)) acc ↔
        k ∈ acc ∨ ∃ l ∈ lists, k ∈ imdb_ids ∧ k ∈ l := by
    intro lists
    induction lists with
    | nil => intro acc; simp
    | cons x rest ih =>
      intro acc
      rw [List.foldl_cons, ih]
      simp only [List.mem_union_iff, List.mem_inter_iff, List.mem_cons]
      constructor
      · rintro ((h | ⟨h1, h2⟩) | ⟨l, hl, h⟩)
        · exact Or.inl h
        · exact Or.inr ⟨x, Or.inl rfl, h1, h2⟩
        · exact Or.inr ⟨l, Or.inr hl, h⟩
      · rintro (h | ⟨l, (rfl | hl), h⟩)
        · exact Or.inl (Or.inl h)
        · exact Or.inl (Or.inr h)
        · exact Or.inr ⟨l, hl, h⟩
  simpa using main other_lists []

theorem delete_fold_skip_all (shared ids : List String) (st : Store)
    (h : ∀ i ∈ ids, i ∈ shared) :
    ids.foldl
      (fun st imdb_id =>
        if imdb_id ∈ shared then st else sql_delete st imdb_id) st = st := by
  induction ids generalizing st with
  | nil => rfl
  | cons i rest ih =>
    rw [List.foldl_cons, if_pos (h i (List.mem_cons_self i rest))]
    exact ih st (fun j hj => h j (List.mem_cons_of_mem i hj))

theorem delete_fold_get (shared ids : List String) (st : Store) (k : String) :
    sql_load
      (ids.foldl
        (fun st imdb_id =>
          if imdb_id ∈ shared then st else sql_delete st imdb_id) st) k =
      if k ∈ ids ∧ k ∉ shared then none else sql_load st k := by
  induction ids generalizing st with
  | nil => simp
  | cons i rest ih =>
    rw [List.foldl_cons]
    by_cases hi : i ∈ shared
    · rw [if_pos hi, ih]
      by_cases hk : k = i
      · subst hk
        simp [hi]
      · simp [List.mem_cons, hk]
    · rw [if_neg hi, ih]
      by_cases hk : k = i
      · subst hk
        by_cases hr : k ∈ rest ∧ k ∉ shared
        · simp [hr]
        · simp only [hr, if_neg, ite_false]
          simp [hi, sql_load_delete_self]
      · have hne := sql_load_delete_ne st i k hk
        by_cases hr : k ∈ rest ∧ k ∉ shared
        · simp [hr, List.mem_cons]
        · simp only [hr, ite_false]
          rw [hne]
          have hcons : ¬ (k ∈ i :: rest ∧ k ∉ shared) := by
            rintro ⟨hmem, hns⟩
            rcases List.mem_cons.mp hmem with h | h
            · exact hk h
            · exact hr ⟨h, hns⟩
          rw [if_neg hcons]

/-- C3: the `delete_file` reconciliation never removes a cache record for an
identifier referenced by some remaining watchlist: in particular, deleting a
watchlist whose identifiers are all contained in a remaining watchlist
removes nothing at all, while an identifier of the deleted watchlist that no
remaining watchlist references loses its cache record. -/
theorem C3_delete_reconciliation (imdb_ids : List String)
    (other_lists : List (List String)) (store : Store) :
    ((∃ bl ∈ other_lists, ∀ x ∈ imdb_ids, x ∈ bl) →
      delete_file_reconcile imdb_ids other_lists store = store) ∧
    (∀ imdb_id ∈ imdb_ids, (∀ l ∈ other_lists, imdb_id ∉ l) →
      sql_load (delete_file_reconcile imdb_ids other_lists store) imdb_id =
        none) ∧
    (∀ imdb_id, (∃ l ∈ other_lists, imdb_id ∈ l) →
      sql_load (delete_file_reconcile imdb_ids other_lists store) imdb_id =
        sql_load store imdb_id) := by
  refine ⟨?_, ?_, ?_⟩
  · rintro ⟨bl, hbl, hsub⟩
    unfold delete_file_reconcile
    exact delete_fold_skip_all _ imdb_ids store
      (fun i hi => (mem_shared_ids imdb_ids other_lists i).mpr
        ⟨bl, hbl, hi, hsub i hi⟩)
  · intro imdb_id hmem hnone
    unfold delete_file_reconcile
    rw [delete_fold_get]
    have hns : imdb_id ∉ shared_ids_of imdb_ids other_lists := by
      rw [mem_shared_ids]
      rintro ⟨l, hl, _, hin⟩
      exact hnone l hl hin
    simp [hmem, hns]
  · intro imdb_id ⟨l, hl, hin⟩
    unfold delete_file_reconcile
    rw [delete_fold_get]
    by_cases hm : imdb_id ∈ imdb_ids
    · have hs : imdb_id ∈ shared_ids_of imdb_ids other_lists :=
        (mem_shared_ids imdb_ids other_lists imdb_id).mpr ⟨l, hl, hm, hin⟩
      simp [hs]
    · simp [hm]

/-- C3 witness: deleting the watchlist with identifiers tt0000001 and
tt0000002 while another watchlist still references tt0000001 removes the
record of tt0000002 and keeps the record of tt0000001. -/
theorem C3_witness :
    sql_load
      (delete_file_reconcile ["tt0000001", "tt0000002"] [["tt0000001"]]
        [("tt0000001", ⟨some 1, []⟩), ("tt0000002", ⟨some 2, []⟩)])
      "tt0000002" = none ∧
    sql_load
      (delete_file_reconcile ["tt0000001", "tt0000002"] [["tt0000001"]]
        [("tt0000001", ⟨some 1, []⟩), ("tt0000002", ⟨some 2, []⟩)])
      "tt0000001" =
      sql_load [("tt0000001", ⟨some 1, []⟩), ("tt0000002", ⟨some 2, []⟩)]
        "tt0000001" := by
  constructor
  · exact (C3_delete_reconciliation ["tt0000001", "tt0000002"] [["tt0000001"]]
      [("tt0000001", ⟨some 1, []⟩), ("tt0000002", ⟨some 2, []⟩)]).2.1
      "tt0000002" (by decide) (by decide)
  · exact (C3_delete_reconciliation ["tt0000001", "tt0000002"] [["tt0000001"]]
      [("tt0000001", ⟨some 1, []⟩), ("tt0000002", ⟨some 2, []⟩)]).2.2
      "tt0000001" ⟨["tt0000001"], by decide, by decide⟩

theorem mem_setAdd (s : List String) (x k : String) :
    k ∈ setAdd s x ↔ k ∈ s ∨ k = x := by
  by_cases h : x ∈ s
  · simp only [setAdd, if_pos h]
    constructor
    · exact Or.inl
    · rintro (hk | rfl)
      · exact hk
      · exact h
  · simp [setAdd, if_neg h]

theorem mem_foldl_setAdd (l : List String) (acc : List String) (k : String) :
    k ∈ l.foldl setAdd acc ↔ k ∈ acc ∨ k ∈ l := by
  induction l generalizing acc with
  | nil => simp
  | cons x rest ih =>
    rw [List.foldl_cons, ih, mem_setAdd]
    simp only [List.mem_cons]
    tauto

theorem refresh_fold_mem (mode : String) (dates : List (String × String))
    (k : String) :
    ∀ (regions : List String) (acc : List String × List String),
      (k ∈ (regions.foldl (refresh_step mode dates) acc).1 ↔
        k ∈ acc.1 ∨
          (k ∈ regions ∧ (dictGet dates k = none ∨ mode = "refresh"))) ∧
      (k ∈ (regions.foldl (refresh_step mode dates) acc).2 ↔
        k ∈ acc.2 ∨
          (k ∈ regions ∧ (∃ d, dictGet dates k = some d) ∧
            ¬ mode = "refresh")) := by
  intro regions
  induction regions with
  | nil => intro acc; simp
  | cons x rest ih =>
    intro acc
    rw [List.foldl_cons]
    by_cases hkx : k = x
    · subst hkx
      cases hx : dictGet dates k with
      | none =>
        have hstep : refresh_step mode dates acc k = (setAdd acc.1 k, acc.2) := by
          simp [refresh_step, hx]
        rw [hstep]
        have h := ih (setAdd acc.1 k, acc.2)
        rw [h.1, h.2]
        simp [mem_setAdd, hx]
      | some d0 =>
        by_cases hm : mode = "refresh"
        · have hstep : refresh_step mode dates acc k =
              (setAdd acc.1 k, acc.2) := by
            simp [refresh_step, hx, hm]
          rw [hstep]
          have h := ih (setAdd acc.1 k, acc.2)
          rw [h.1, h.2]
          simp [mem_setAdd, hx, hm]
        · have hstep : refresh_step mode dates acc k =
              (acc.1, setAdd acc.2 k) := by
            simp [refresh_step, hx, hm]
          rw [hstep]
          have h := ih (acc.1, setAdd acc.2 k)
          rw [h.1, h.2]
          simp [mem_setAdd, hx, hm]
    · cases hx : dictGet dates x with
      | none =>
        have hstep : refresh_step mode dates acc x = (setAdd acc.1 x, acc.2) := by
          simp [refresh_step, hx]
        rw [hstep]
        have h := ih (setAdd acc.1 x, acc.2)
        rw [h.1, h.2]
        simp only [mem_setAdd, List.mem_cons]
        constructor
        · constructor
          · rintro ((ha | rfl) | hb)
            · exact Or.inl ha
            · exact absurd rfl hkx
            · exact Or.inr ⟨Or.inr hb.1, hb.2⟩
          · rintro (ha | ⟨(rfl | hb), hp⟩)
            · exact Or.inl (Or.inl ha)
            · exact absurd rfl hkx
            · exact Or.inr ⟨hb, hp⟩
        · constructor
          · rintro (ha | hb)
            · exact Or.inl ha
            · exact Or.inr ⟨Or.inr hb.1, hb.2⟩
          · rintro (ha | ⟨(rfl | hb), hq⟩)
            · exact Or.inl ha
            · exact absurd rfl hkx
            · exact Or.inr ⟨hb, hq⟩
      | some d0 =>
        by_cases hm : mode = "refresh"
        · have hstep : refresh_step mode dates acc x =
              (setAdd acc.1 x, acc.2) := by
            simp [refresh_step, hx, hm]
          rw [hstep]
          have h := ih (setAdd acc.1 x, acc.2)
          rw [h.1, h.2]
          simp only [mem_setAdd, List.mem_cons]
          constructor
          · constructor
            · rintro ((ha | rfl) | hb)
              · exact Or.inl ha
              · exact absurd rfl hkx
              · exact Or.inr ⟨Or.inr hb.1, hb.2⟩
            · rintro (ha | ⟨(rfl | hb), hp⟩)
              · exact Or.inl (Or.inl ha)
              · exact absurd rfl hkx
              · exact Or.inr ⟨hb, hp⟩
          · constructor
            · rintro (ha | hb)
              · exact Or.inl ha
              · exact Or.inr ⟨Or.inr hb.1, hb.2⟩
            · rintro (ha | ⟨(rfl | hb), hq⟩)
              · exact Or.inl ha
              · exact absurd rfl hkx
              · exact Or.inr ⟨hb, hq⟩
        · have hstep : refresh_step mode dates acc x =
              (acc.1, setAdd acc.2 x) := by
            simp [refresh_step, hx, hm]
          rw [hstep]
          have h := ih (acc.1, setAdd acc.2 x)
          rw [h.1, h.2]
          simp only [mem_setAdd, List.mem_cons]
          constructor
          · constructor
            · rintro (ha | hb)
              · exact Or.inl ha
              · exact Or.inr ⟨Or.inr hb.1, hb.2⟩
            · rintro (ha | ⟨(rfl | hb), hp⟩)
              · exact Or.inl ha
              · exact absurd rfl hkx
              · exact Or.inr ⟨hb, hp⟩
          · constructor
            · rintro ((ha | rfl) | hb)
              · exact Or.inl ha
              · exact absurd rfl hkx
              · exact Or.inr ⟨Or.inr hb.1, hb.2⟩
            · rintro (ha | ⟨(rfl | hb), hq⟩)
              · exact Or.inl (Or.inl ha)
              · exact absurd rfl hkx
              · exact Or.inr ⟨hb, hq⟩

/-- C4: on an existing (non-overwrite) watchlist, a requested region with no
recorded date is marked to-refresh (and not use-cached); a region with a
recorded date is marked to-refresh exactly when the mode is "refresh" and
otherwise marked use-cached (and not to-refresh); after resolution the
metadata date of every refreshed region is today and the date of every
other region is unchanged; on a brand-new upload every requested region is
marked to-refresh regardless of mode. -/
theorem C4_refresh_policy (refresh_mode : String)
    (hm : refresh_mode ∈ ["refresh", "use_saved", "auto"])
    (existing_dates : List (String × String)) (regions : List String)
    (today_str : String) :
    (∀ r ∈ regions, dictGet existing_dates r = none →
      r ∈ (refresh_decision false refresh_mode existing_dates regions).1 ∧
      r ∉ (refresh_decision false refresh_mode existing_dates regions).2) ∧
    (∀ r ∈ regions, ∀ d, dictGet existing_dates r = some d →
      (refresh_mode = "refresh" →
        r ∈ (refresh_decision false refresh_mode existing_dates regions).1) ∧
      (¬ refresh_mode = "refresh" →
        r ∈ (refresh_decision false refresh_mode existing_dates regions).2 ∧
        r ∉ (refresh_decision false refresh_mode existing_dates regions).1)) ∧
    (∀ r ∈ (refresh_decision false refresh_mode existing_dates regions).1,
      dictGet (update_meta_regions existing_dates
        (refresh_decision false refresh_mode existing_dates regions).1
        today_str) r = some today_str) ∧
    (∀ r, r ∉ (refresh_decision false refresh_mode existing_dates regions).1 →
      dictGet (update_meta_regions existing_dates
        (refresh_decision false refresh_mode existing_dates regions).1
        today_str) r = dictGet existing_dates r) ∧
    (∀ r, r ∈ (refresh_decision true refresh_mode existing_dates regions).1 ↔
      r ∈ regions) := by
  have hdec : refresh_decision false refresh_mode existing_dates regions =
      regions.foldl (refresh_step refresh_mode existing_dates) ([], []) := by
    simp [refresh_decision]
  have hchar := fun r =>
    refresh_fold_mem refresh_mode existing_dates r regions ([], [])
  have hupd : ∀ r,
      dictGet (update_meta_regions existing_dates
        (refresh_decision false refresh_mode existing_dates regions).1
        today_str) r =
      if r ∈ (refresh_decision false refresh_mode existing_dates regions).1
      then some today_str else dictGet existing_dates r := by
    intro r
    simpa [update_meta_regions] using
      dictGet_foldUpd (fun _ => today_str)
        (refresh_decision false refresh_mode existing_dates regions).1
        existing_dates r
  refine ⟨?_, ?_, ?_, ?_, ?_⟩
  · intro r hr hnone
    rw [hdec]
    constructor
    · exact ((hchar r).1).mpr (Or.inr ⟨hr, Or.inl hnone⟩)
    · intro hmem
      rcases ((hchar r).2).mp hmem with h | ⟨_, ⟨d, hd⟩, _⟩
      · exact absurd h (List.not_mem_nil r)
      · rw [hnone] at hd
        exact Option.noConfusion hd
  · intro r hr d hd
    constructor
    · intro hmode
      rw [hdec]
      exact ((hchar r).1).mpr (Or.inr ⟨hr, Or.inr hmode⟩)
    · intro hmode
      rw [hdec]
      constructor
      · exact ((hchar r).2).mpr (Or.inr ⟨hr, ⟨d, hd⟩, hmode⟩)
      · intro hmem
        rcases ((hchar r).1).mp hmem with h | ⟨_, hn | hrm⟩
        · exact absurd h (List.not_mem_nil r)
        · rw [hd] at hn
          exact Option.noConfusion hn
        · exact hmode hrm
  · intro r hr
    rw [hupd r, if_pos hr]
  · intro r hr
    rw [hupd r, if_neg hr]
  · intro r
    have : refresh_decision true refresh_mode existing_dates regions =
        (regions.foldl setAdd [], []) := by
      simp [refresh_decision]
    rw [this]
    simpa using mem_foldl_setAdd regions [] r

/-- C4 witness: mode "auto" on a watchlist whose metadata records a date for
GB only, with requested regions GB and US: US is refreshed, GB is served
from cache, US's metadata date becomes today and GB's is unchanged. -/
theorem C4_witness :
    ("US" ∈ (refresh_decision false "auto" [("GB", "2025-10-01")]
        ["GB", "US"]).1 ∧
      "US" ∉ (refresh_decision false "auto" [("GB", "2025-10-01")]
        ["GB", "US"]).2) ∧
    ("GB" ∈ (refresh_decision false "auto" [("GB", "2025-10-01")]
        ["GB", "US"]).2 ∧
      "GB" ∉ (refresh_decision false "auto" [("GB", "2025-10-01")]
        ["GB", "US"]).1) ∧
    dictGet (update_meta_regions [("GB", "2025-10-01")]
      (refresh_decision false "auto" [("GB", "2025-10-01")] ["GB", "US"]).1
      "2025-10-12") "US" = some "2025-10-12" ∧
    dictGet (update_meta_regions [("GB", "2025-10-01")]
      (refresh_decision false "auto" [("GB", "2025-10-01")] ["GB", "US"]).1
      "2025-10-12") "GB" = dictGet [("GB", "2025-10-01")] "GB" := by
  have h := C4_refresh_policy "auto" (by decide) [("GB", "2025-10-01")]
    ["GB", "US"] "2025-10-12"
  refine ⟨h.1 "US" (by decide) (by decide), ?_, ?_, ?_⟩
  · have h2 := (h.2.1 "GB" (by decide) "2025-10-01" (by decide)).2 (by decide)
    exact h2
  · exact h.2.2.1 "US" (by decide)
  · exact h.2.2.2.1 "GB" (by decide)

theorem fresh_loop_fresh_region (lookup : Int → String → String → List String)
    (tmdb_id : Option Int) (media_type today_str r : String) :
    ∀ (regions : List String) (block : List (String × Entry))
      (results : List (String × List String)) (calls : List String),
      (extract_entry (dictGet block r)).1 = some today_str →
      dictGet (fresh_loop lookup tmdb_id media_type today_str regions block
        results calls).1 r = dictGet block r ∧
      dictGet (fresh_loop lookup tmdb_id media_type today_str regions block
        results calls).2.1 r =
        (if r ∈ regions then some (extract_entry (dictGet block r)).2
          else dictGet results r) ∧
      (r ∈ (fresh_loop lookup tmdb_id media_type today_str regions block
        results calls).2.2 ↔ r ∈ calls) := by
  intro regions
  induction regions with
  | nil =>
    intro block results calls hfresh
    simp [fresh_loop]
  | cons x rest ih =>
    intro block results calls hfresh
    simp only [fresh_loop]
    by_cases hx : (extract_entry (dictGet block x)).1 = some today_str
    · rw [if_pos hx]
      have h := ih block (dictUpd results x (extract_entry (dictGet block x)).2)
        calls hfresh
      refine ⟨h.1, ?_, h.2.2⟩
      rw [h.2.1]
      by_cases hrx : r = x
      · subst hrx
        by_cases hrr : r ∈ rest
        · simp [hrr]
        · simp [hrr, dictGet_upd_self]
      · rw [dictGet_upd_ne _ _ _ _ hrx]
        simp [List.mem_cons, hrx]
    · rw [if_neg hx]
      have hrx : ¬ r = x := fun he => hx (he ▸ hfresh)
      have hblock' : ∀ v : Entry,
          (extract_entry (dictGet (dictUpd block x v) r)).1 = some today_str := by
        intro v
        rw [dictGet_upd_ne _ _ _ _ hrx]
        exact hfresh
      have hget : ∀ v : Entry,
          dictGet (dictUpd block x v) r = dictGet block r :=
        fun v => dictGet_upd_ne _ _ _ _ hrx
      cases tmdb_id with
      | none =>
        have h := ih (dictUpd block x (.dated (some today_str) []))
          (dictUpd results x []) calls (hblock' _)
        refine ⟨?_, ?_, h.2.2⟩
        · rw [h.1, hget]
        · rw [h.2.1, hget, dictGet_upd_ne _ _ _ _ hrx]
          simp [List.mem_cons, hrx]
      | some tid =>
        have h := ih
          (dictUpd block x (.dated (some today_str) (lookup tid media_type x)))
          (dictUpd results x (lookup tid media_type x)) (calls ++ [x])
          (hblock' _)
        refine ⟨?_, ?_, ?_⟩
        · rw [h.1, hget]
        · rw [h.2.1, hget, dictGet_upd_ne _ _ _ _ hrx]
          simp [List.mem_cons, hrx]
        · rw [h.2.2]
          simp [List.mem_append, hrx]

theorem fresh_loop_dated_persists (lookup : Int → String → String → List String)
    (tmdb_id : Option Int) (media_type today_str r : String) (ns : List String) :
    ∀ (regions : List String) (block : List (String × Entry))
      (results : List (String × List String)) (calls : List String),
      dictGet block r = some (.dated (some today_str) ns) →
      dictGet (fresh_loop lookup tmdb_id media_type today_str regions block
        results calls).1 r = some (.dated (some today_str) ns) := by
  intro regions
  induction regions with
  | nil =>
    intro block results calls h
    simpa [fresh_loop] using h
  | cons x rest ih =>
    intro block results calls h
    simp only [fresh_loop]
    by_cases hx : (extract_entry (dictGet block x)).1 = some today_str
    · rw [if_pos hx]
      exact ih block _ calls h
    · rw [if_neg hx]
      have hrx : ¬ r = x := by
        intro he
        rw [← he, h] at hx
        exact hx rfl
      have hget : ∀ v : Entry,
          dictGet (dictUpd block x v) r = some (.dated (some today_str) ns) := by
        intro v
        rw [dictGet_upd_ne _ _ _ _ hrx]
        exact h
      cases tmdb_id with
      | none => exact ih _ _ calls (hget _)
      | some tid => exact ih _ _ (calls ++ [x]) (hget _)

theorem fresh_loop_dated_establishes
    (lookup : Int → String → String → List String) (tmdb_id : Option Int)
    (media_type today_str r : String) :
    ∀ (regions : List String) (block : List (String × Entry))
      (results : List (String × List String)) (calls : List String),
      r ∈ regions →
      ∃ ns, dictGet (fresh_loop lookup tmdb_id media_type today_str regions
        block results calls).1 r = some (.dated (some today_str) ns) := by
  intro regions
  induction regions with
  | nil =>
    intro block results calls h
    exact absurd h (List.not_mem_nil r)
  | cons x rest ih =>
    intro block results calls hr
    simp only [fresh_loop]
    by_cases hx : (extract_entry (dictGet block x)).1 = some today_str
    · rw [if_pos hx]
      by_cases hrx : r = x
      · subst hrx
        rcases hblock : dictGet block r with _ | e
        · rw [hblock] at hx
          exact absurd hx (by simp [extract_entry])
        · cases e with
          | legacy nms =>
            rw [hblock] at hx
            exact absurd hx (by simp [extract_entry])
          | dated lu nms =>
            rw [hblock] at hx
            simp only [extract_entry] at hx
            rw [hx] at hblock
            exact ⟨nms, fresh_loop_dated_persists lookup tmdb_id media_type
              today_str r nms rest block _ calls hblock⟩
      · rcases List.mem_cons.mp hr with h | h
        · exact absurd h hrx
        · exact ih block _ calls h
    · rw [if_neg hx]
      cases tmdb_id with
      | none =>
        by_cases hrx : r = x
        · subst hrx
          exact ⟨[], fresh_loop_dated_persists lookup none media_type
            today_str r [] rest _ _ calls (dictGet_upd_self block r _)⟩
        · rcases List.mem_cons.mp hr with h | h
          · exact absurd h hrx
          · exact ih _ _ calls h
      | some tid =>
        by_cases hrx : r = x
        · subst hrx
          exact ⟨lookup tid media_type r, fresh_loop_dated_persists lookup
            (some tid) media_type today_str r (lookup tid media_type r) rest
            _ _ (calls ++ [r]) (dictGet_upd_self block r _)⟩
        · rcases List.mem_cons.mp hr with h | h
          · exact absurd h hrx
          · exact ih _ _ (calls ++ [x]) h

/-- C1: a requested region whose cached entry is dated today is served its
cached names unchanged by `get_providers_fresh`, and the external
availability lookup is not invoked for that region. -/
theorem C1_fresh_cache_hit (find_id : String → Option Int)
    (lookup : Int → String → String → List String) (store : Store)
    (imdb_id imdb_type : String) (regions : List String)
    (today_str r : String) (hr : r ∈ regions)
    (hfresh : (extract_entry (dictGet
        ((sql_load store imdb_id).getD ⟨none, []⟩).providers r)).1 =
      some today_str) :
    dictGet (get_providers_fresh find_id lookup store imdb_id imdb_type
        regions today_str).providers r =
      some (extract_entry (dictGet
        ((sql_load store imdb_id).getD ⟨none, []⟩).providers r)).2 ∧
    r ∉ (get_providers_fresh find_id lookup store imdb_id imdb_type regions
        today_str).lookup_calls := by
  have h := fresh_loop_fresh_region lookup
    (if (regions.any fun region =>
          ¬ (extract_entry (dictGet ((sql_load store imdb_id).getD
            ⟨none, []⟩).providers region)).1 = some today_str) &&
        ((sql_load store imdb_id).getD ⟨none, []⟩).tmdb_id.isNone
      then find_id imdb_id
      else ((sql_load store imdb_id).getD ⟨none, []⟩).tmdb_id)
    (imdb_type_to_tmdb_type imdb_type) today_str r regions
    ((sql_load store imdb_id).getD ⟨none, []⟩).providers [] [] hfresh
  constructor
  · have h2 := h.2.1
    rw [if_pos hr] at h2
    exact h2
  · intro hc
    exact absurd (h.2.2.mp hc) (List.not_mem_nil r)

/-- C1 witness: identifier tt0111161 has its GB entry dated today; a fresh
resolution over GB and US serves GB from the cache and does not invoke the
availability lookup for GB. -/
theorem C1_witness :
    "GB" ∈ ["GB", "US"] ∧
    (extract_entry (dictGet
        ((sql_load
          [("tt0111161", ⟨some 278,
            [("GB", .dated (some "2025-10-12") ["Netflix"])]⟩)]
          "tt0111161").getD ⟨none, []⟩).providers "GB")).1 =
      some "2025-10-12" ∧
    (dictGet (get_providers_fresh (fun _ => some 278)
        (fun _ _ _ => ["Max"])
        [("tt0111161", ⟨some 278,
          [("GB", .dated (some "2025-10-12") ["Netflix"])]⟩)]
        "tt0111161" "movie" ["GB", "US"] "2025-10-12").providers "GB" =
      some (extract_entry (dictGet
        ((sql_load
          [("tt0111161", ⟨some 278,
            [("GB", .dated (some "2025-10-12") ["Netflix"])]⟩)]
          "tt0111161").getD ⟨none, []⟩).providers "GB")).2 ∧
    "GB" ∉ (get_providers_fresh (fun _ => some 278) (fun _ _ _ => ["Max"])
        [("tt0111161", ⟨some 278,
          [("GB", .dated (some "2025-10-12") ["Netflix"])]⟩)]
        "tt0111161" "movie" ["GB", "US"] "2025-10-12").lookup_calls) :=
  ⟨by decide, by decide,
    C1_fresh_cache_hit (fun _ => some 278) (fun _ _ _ => ["Max"])
      [("tt0111161", ⟨some 278,
        [("GB", .dated (some "2025-10-12") ["Netflix"])]⟩)]
      "tt0111161" "movie" ["GB", "US"] "2025-10-12" "GB"
      (by decide) (by decide)⟩

/-- C7: cache entries migrate one way.  On read, a legacy bare-list entry
decodes to no date and its names (and is never equal to today, hence always
stale), while a structured entry decodes to its date and names; on write,
after any `get_providers_fresh` call the stored entry of every requested
region — in particular every refreshed one — is in the structured form
with `last_updated` today, never the bare-list shape. -/
theorem C7_one_way_migration :
    (∀ names, extract_entry (some (.legacy names)) = (none, names)) ∧
    (∀ names today_str,
      ¬ (extract_entry (some (.legacy names))).1 = some today_str) ∧
    (∀ d names, extract_entry (some (.dated d names)) = (d, names)) ∧
    (∀ (find_id : String → Option Int)
      (lookup : Int → String → String → List String) (store : Store)
      (imdb_id imdb_type : String) (regions : List String)
      (today_str r : String), r ∈ regions →
      ∃ rec names,
        sql_load (get_providers_fresh find_id lookup store imdb_id imdb_type
          regions today_str).store imdb_id = some rec ∧
        dictGet rec.providers r =
          some (.dated (some today_str) names)) := by
  refine ⟨fun _ => rfl, fun _ _ => by simp [extract_entry], fun _ _ => rfl, ?_⟩
  intro find_id lookup store imdb_id imdb_type regions today_str r hr
  obtain ⟨ns, hns⟩ := fresh_loop_dated_establishes lookup _ _ today_str r
    regions ((sql_load store imdb_id).getD ⟨none, []⟩).providers [] [] hr
  exact ⟨_, ns, dictGet_upd_self store imdb_id _, hns⟩

/-- C7 witness: a legacy GB entry is decoded with no date (stale against
today) and, after a fresh resolution, is stored in structured dated form. -/
theorem C7_witness :
    ¬ (extract_entry (some (.legacy ["MUBI"]))).1 = some "2025-10-12" ∧
    "GB" ∈ ["GB"] ∧
    ∃ rec names,
      sql_load (get_providers_fresh (fun _ => some 278)
        (fun _ _ _ => ["Max"])
        [("tt0111161", ⟨some 278, [("GB", .legacy ["MUBI"])]⟩)]
        "tt0111161" "movie" ["GB"] "2025-10-12").store "tt0111161" =
        some rec ∧
      dictGet rec.providers "GB" =
        some (.dated (some "2025-10-12") names) :=
  ⟨C7_one_way_migration.2.1 ["MUBI"] "2025-10-12", by decide,
    C7_one_way_migration.2.2.2 (fun _ => some 278) (fun _ _ _ => ["Max"])
      [("tt0111161", ⟨some 278, [("GB", .legacy ["MUBI"])]⟩)]
      "tt0111161" "movie" ["GB"] "2025-10-12" "GB" (by decide)⟩
